import Mathlib

/-!
Shallow embedding of the UNIC backend engagement-contest engine:
the scoring services (src/services/points.ts and src/services/scoring.ts),
the gift-pool ledger service, the prize-distribution service
(src/services/prize.ts) and the contest-lifecycle scheduler, together with
proofs of the behavioural properties stated in the design document.

Timestamps are modelled as integers, JavaScript numbers that carry point
multipliers as rationals, and every database round trip as a pure state
transformation; each MongoDB findOneAndUpdate with a filter is one atomic
step, while a mongoose document save writes back the materialized document.
-/

/-- JavaScript Math.round: floor of x + 1/2 (all values rounded here are
nonnegative, where this agrees with JS semantics). -/
def jsRound (q : Rat) : Int := ⌊q + 1/2⌋

/-- Lifecycle status enum of the Event schema. -/
inductive EventStatus
  | draft
  | pending_payment
  | active
  | completing
  | completed
  | cancelled
deriving DecidableEq, Repr

/-- The activityType enum of the Event schema. -/
inductive ActivityType
  | reactions
  | comments
  | all
deriving DecidableEq, Repr

/-- Prize type enum of the Event prizes subdocument. -/
inductive PrizeType
  | telegram_gift
  | ton
  | custom
deriving DecidableEq, Repr

/-- Source enum for telegram-gift prizes. -/
inductive GiftSource
  | pool
  | on_demand
deriving DecidableEq, Repr

/-- Custom reward payload of a prize. -/
structure CustomReward where
  name : String
  description : String
deriving DecidableEq, Repr

/-- One entry of Event.prizes. -/
structure Prize where
  position : Nat
  type : PrizeType
  giftId : Option String
  name : Option String
  source : Option GiftSource
  tonAmount : Option Rat
  customReward : Option CustomReward
deriving DecidableEq, Repr

/-- One entry of Event.winners, as built in memory by the scheduler (the
scheduler attaches a giftId to each winner object). -/
structure Winner where
  telegramId : Int
  points : Int
  position : Nat
  giftId : Option String
  giftSent : Bool
deriving DecidableEq, Repr

/-- The fields of the Event document used by the core engine. -/
structure Event where
  status : EventStatus
  activityType : ActivityType
  endsAt : Int
  winnersCount : Nat
  prizes : List Prize
  winners : List Winner
  totalReactions : Nat
  totalComments : Nat
deriving DecidableEq, Repr

/-- A UserEventStats document (one per (participant, contest)). -/
structure UserEventStats where
  userId : Int
  points : Int
  reactionsCount : Nat
  commentsCount : Nat
  repliesCount : Nat
  boostMultiplier : Rat
  lastActivityAt : Int
deriving DecidableEq, Repr

/-- The fields of a Boost document consulted by the scoring path. -/
structure BoostDoc where
  multiplier : Rat
  isActive : Bool
  expiresAt : Option Int
deriving DecidableEq, Repr

namespace PointsService

/-- Point value constants of PointsService. -/
def REACTION_POINTS : Nat := 1

/-- Comment point value constant of PointsService. -/
def COMMENT_POINTS : Nat := 3

/-- Reply point value constant of PointsService. -/
def REPLY_POINTS : Nat := 2

/-- PointsService.getActiveBoost: the Boost.findOne query filters on
isActive with expiresAt either absent or strictly in the future, and
returns the multiplier of the matching boost. (The subsequent expired
branch in the source is unreachable under this filter.) -/
def getActiveBoost (boost? : Option BoostDoc) (now : Int) : Option Rat :=
  match boost? with
  | none => none
  | some b =>
      if b.isActive ∧ (∀ t ∈ b.expiresAt, now < t) then
        some b.multiplier
      else
        none

/-- PointsService.handleReaction, as a transformation of the (event,
participant stats) pair; boost? is the participant's boost document at call
time and now the call timestamp. Returns the updated state and the earned
points, or the thrown error. -/
def handleReaction (ev : Event) (stats? : Option UserEventStats)
    (boost? : Option BoostDoc) (userId : Int) (now : Int) :
    Except String (Event × Option UserEventStats × Int) :=
  if ev.status = EventStatus.active ∧ now < ev.endsAt then
    if ev.activityType ≠ ActivityType.reactions ∧ ev.activityType ≠ ActivityType.all then
      Except.ok (ev, stats?, 0)
    else
      let stats := stats?.getD
        { userId := userId, points := 0, reactionsCount := 0, commentsCount := 0,
          repliesCount := 0, boostMultiplier := 1, lastActivityAt := now }
      let multiplier := (getActiveBoost boost? now).getD 1
      let basePoints := REACTION_POINTS
      let earnedPoints := jsRound ((basePoints : Rat) * multiplier)
      let stats' :=
        { stats with points := stats.points + earnedPoints,
                     reactionsCount := stats.reactionsCount + 1,
                     boostMultiplier := multiplier,
                     lastActivityAt := now }
      let ev' := { ev with totalReactions := ev.totalReactions + 1 }
      Except.ok (ev', some stats', earnedPoints)
  else
    Except.error "Event not found or not active"

/-- PointsService.handleComment (isReply selects reply vs comment points). -/
def handleComment (ev : Event) (stats? : Option UserEventStats)
    (boost? : Option BoostDoc) (userId : Int) (now : Int) (isReply : Bool) :
    Except String (Event × Option UserEventStats × Int) :=
  if ev.status = EventStatus.active ∧ now < ev.endsAt then
    if ev.activityType ≠ ActivityType.comments ∧ ev.activityType ≠ ActivityType.all then
      Except.ok (ev, stats?, 0)
    else
      let stats := stats?.getD
        { userId := userId, points := 0, reactionsCount := 0, commentsCount := 0,
          repliesCount := 0, boostMultiplier := 1, lastActivityAt := now }
      let multiplier := (getActiveBoost boost? now).getD 1
      let basePoints := if isReply then REPLY_POINTS else COMMENT_POINTS
      let earnedPoints := jsRound ((basePoints : Rat) * multiplier)
      let stats' :=
        { stats with points := stats.points + earnedPoints,
                     commentsCount := if isReply then stats.commentsCount
                                      else stats.commentsCount + 1,
                     repliesCount := if isReply then stats.repliesCount + 1
                                     else stats.repliesCount,
                     boostMultiplier := multiplier,
                     lastActivityAt := now }
      let ev' := { ev with totalComments := ev.totalComments + 1 }
      Except.ok (ev', some stats', earnedPoints)
  else
    Except.error "Event not found or not active"

end PointsService

/-- Kind of one scoring action. -/
inductive ActionKind
  | reaction
  | comment (isReply : Bool)
deriving DecidableEq, Repr

/-- One scoring call: the action kind, the wall-clock time of the call and
the participant's boost document as it stands at call time. -/
structure ScoringCall where
  kind : ActionKind
  now : Int
  boost : Option BoostDoc
deriving Repr

namespace PointsService

/-- Dispatch one scoring call to handleReaction or handleComment; a thrown
error leaves the caller's state untouched and awards nothing. -/
def execCall (userId : Int) (s : Event × Option UserEventStats) (c : ScoringCall) :
    (Event × Option UserEventStats) × Option Int :=
  match (match c.kind with
         | ActionKind.reaction => handleReaction s.1 s.2 c.boost userId c.now
         | ActionKind.comment r => handleComment s.1 s.2 c.boost userId c.now r) with
  | Except.error _ => (s, none)
  | Except.ok (ev', st', n) => ((ev', st'), some n)

/-- Fold a list of scoring calls over the (event, stats) state. -/
def runCalls (userId : Int) (s : Event × Option UserEventStats) :
    List ScoringCall → Event × Option UserEventStats
  | [] => s
  | c :: cs => runCalls userId (execCall userId s c).1 cs

end PointsService

/-- Points recorded in an optional stats document (0 before first creation). -/
def statsPoints : Option UserEventStats → Int
  | none => 0
  | some s => s.points

/-- From the spec's words: base point value of an action kind (reaction 1,
comment 3, reply 2). Second definition for the refinement claim C1. -/
def specBasePoints : ActionKind → Nat
  | ActionKind.reaction => 1
  | ActionKind.comment false => 3
  | ActionKind.comment true => 2

/-- From the spec's words: whether the contest activityType counts the kind. -/
def specKindCounted (t : ActivityType) : ActionKind → Bool
  | ActionKind.reaction => t == ActivityType.reactions || t == ActivityType.all
  | ActionKind.comment _ => t == ActivityType.comments || t == ActivityType.all

/-- From the spec's words: the award of one scoring call - none when the
contest is not accepting activity, 0 for an excluded kind, and otherwise
round of basePoints times the multiplier of the currently active boost
(1.0 if none). -/
def specAward (ev : Event) (c : ScoringCall) : Option Int :=
  if ev.status = EventStatus.active ∧ c.now < ev.endsAt then
    if specKindCounted ev.activityType c.kind then
      some (jsRound ((specBasePoints c.kind : Rat) *
        ((PointsService.getActiveBoost c.boost c.now).getD 1)))
    else
      some 0
  else
    none

/-- From the spec's words: the sum of per-call awards over accepted calls. -/
def specTotal (ev : Event) (cs : List ScoringCall) : Int :=
  (cs.map (fun c => (specAward ev c).getD 0)).sum

/-- Helper: specAward reads only the gating fields of the event. -/
theorem specAward_congr {ev₁ ev₂ : Event} (c : ScoringCall)
    (hs : ev₁.status = ev₂.status) (ha : ev₁.activityType = ev₂.activityType)
    (he : ev₁.endsAt = ev₂.endsAt) : specAward ev₁ c = specAward ev₂ c := by
  simp [specAward, hs, ha, he]

/-- Helper: one scoring call changes the points total by exactly the
specification award and preserves the gating fields of the event. -/
theorem execCall_points (userId : Int) (s : Event × Option UserEventStats)
    (c : ScoringCall) :
    statsPoints (PointsService.execCall userId s c).1.2 =
      statsPoints s.2 + (specAward s.1 c).getD 0 ∧
    (PointsService.execCall userId s c).1.1.status = s.1.status ∧
    (PointsService.execCall userId s c).1.1.activityType = s.1.activityType ∧
    (PointsService.execCall userId s c).1.1.endsAt = s.1.endsAt := by
  obtain ⟨ev, st?⟩ := s
  obtain ⟨k, now, b⟩ := c
  cases k with
  | reaction =>
      by_cases h : ev.status = EventStatus.active ∧ now < ev.endsAt
      · cases htype : ev.activityType <;>
          cases st? <;>
            simp [PointsService.execCall, PointsService.handleReaction, specAward,
              specKindCounted, specBasePoints, PointsService.REACTION_POINTS,
              h, htype, statsPoints]
      · simp [PointsService.execCall, PointsService.handleReaction, specAward, h]
  | comment r =>
      by_cases h : ev.status = EventStatus.active ∧ now < ev.endsAt
      · cases htype : ev.activityType <;>
          cases st? <;> cases r <;>
            simp [PointsService.execCall, PointsService.handleComment, specAward,
              specKindCounted, specBasePoints, PointsService.COMMENT_POINTS,
              PointsService.REPLY_POINTS, h, htype, statsPoints]
      · simp [PointsService.execCall, PointsService.handleComment, specAward, h]

/-- Helper: fold form of the points total, generalized over a start state
that agrees with the reference event on the gating fields. -/
theorem runCalls_points (userId : Int) :
    ∀ (cs : List ScoringCall) (s : Event × Option UserEventStats) (ev : Event),
      s.1.status = ev.status → s.1.activityType = ev.activityType →
      s.1.endsAt = ev.endsAt →
      statsPoints (PointsService.runCalls userId s cs).2 =
        statsPoints s.2 + specTotal ev cs := by
  intro cs
  induction cs with
  | nil => intro s ev _ _ _; simp [PointsService.runCalls, specTotal]
  | cons c cs ih =>
      intro s ev hs ha he
      obtain ⟨hp, h1, h2, h3⟩ := execCall_points userId s c
      rw [PointsService.runCalls, ih _ ev (h1.trans hs) (h2.trans ha) (h3.trans he), hp,
        specAward_congr c hs ha he]
      simp [specTotal]
      ring

/-- C1: for every sequence of scoring calls (handleReaction / handleComment)
on one (participant, contest) starting with no stats document, each accepted
call awards round(basePoints times the active multiplier) points - basePoints
1 for a reaction, 3 for a comment, 2 for a reply, multiplier from the
currently active boost (1.0 if none) - and the final point total equals the
sum of these per-call awards over accepted calls only. -/
theorem points_total_matches_spec_awards (userId : Int) (ev : Event)
    (cs : List ScoringCall) :
    statsPoints (PointsService.runCalls userId (ev, none) cs).2 = specTotal ev cs := by
  simpa [statsPoints] using runCalls_points userId cs (ev, none) ev rfl rfl rfl

/-- C6: every scoring call re-checks at call time that the contest is active
with endsAt in the future, failing with an error and no state mutation
otherwise; and when the activityType excludes the action kind the call
returns 0 and records nothing, as a non-error no-op. -/
theorem scoring_precondition_and_gating (ev : Event) (st? : Option UserEventStats)
    (b? : Option BoostDoc) (userId now : Int) :
    (¬ (ev.status = EventStatus.active ∧ now < ev.endsAt) →
      PointsService.handleReaction ev st? b? userId now =
        Except.error "Event not found or not active" ∧
      (∀ r, PointsService.handleComment ev st? b? userId now r =
        Except.error "Event not found or not active") ∧
      (∀ c : ScoringCall, c.now = now →
        PointsService.execCall userId (ev, st?) c = ((ev, st?), none))) ∧
    (ev.status = EventStatus.active → now < ev.endsAt →
      (ev.activityType = ActivityType.comments →
        PointsService.handleReaction ev st? b? userId now = Except.ok (ev, st?, 0)) ∧
      (ev.activityType = ActivityType.reactions →
        ∀ r, PointsService.handleComment ev st? b? userId now r =
          Except.ok (ev, st?, 0))) := by
  constructor
  · intro h
    refine ⟨by simp [PointsService.handleReaction, h],
            fun r => by simp [PointsService.handleComment, h], ?_⟩
    intro c hc
    obtain ⟨k, cnow, cb⟩ := c
    subst hc
    cases k <;>
      simp [PointsService.execCall, PointsService.handleReaction,
        PointsService.handleComment, h]
  · intro h1 h2
    constructor
    · intro ht
      simp [PointsService.handleReaction, h1, h2, ht]
    · intro ht r
      simp [PointsService.handleComment, h1, h2, ht]

/-- Witness for C6 at concrete inputs: a completed contest rejects a
reaction without mutation, and an active reactions-only contest returns 0
for a comment without mutation. -/
theorem scoring_precondition_and_gating_witness :
    (PointsService.handleReaction
        { status := EventStatus.completed, activityType := ActivityType.all,
          endsAt := 10, winnersCount := 1, prizes := [], winners := [],
          totalReactions := 0, totalComments := 0 } none none 7 5 =
      Except.error "Event not found or not active") ∧
    (PointsService.handleComment
        { status := EventStatus.active, activityType := ActivityType.reactions,
          endsAt := 10, winnersCount := 1, prizes := [], winners := [],
          totalReactions := 0, totalComments := 0 } none none 7 5 false =
      Except.ok ({ status := EventStatus.active,
                   activityType := ActivityType.reactions,
                   endsAt := 10, winnersCount := 1, prizes := [], winners := [],
                   totalReactions := 0, totalComments := 0 }, none, 0)) := by
  constructor
  · exact ((scoring_precondition_and_gating _ none none 7 5).1 (by decide)).1
  · exact ((scoring_precondition_and_gating _ none none 7 5).2 rfl (by decide)).2 rfl false

/-- The counters of one GiftPool document (per gift id). -/
structure GiftPool where
  totalAvailable : Int
  reserved : Int
  used : Int
deriving DecidableEq, Repr

namespace GiftPoolService

/-- GiftPoolService.reserveGift: one atomic findOneAndUpdate whose filter
requires totalAvailable - reserved - used to be at least the quantity and
whose update increments reserved; no matching document yields false. A
nonpositive quantity is rejected with a thrown error. -/
def reserveGift (g : GiftPool) (quantity : Int) : Except String (GiftPool × Bool) :=
  if quantity ≤ 0 then
    Except.error "Quantity must be positive"
  else if quantity ≤ g.totalAvailable - g.reserved - g.used then
    Except.ok ({ g with reserved := g.reserved + quantity }, true)
  else
    Except.ok (g, false)

/-- GiftPoolService.checkAvailability for one document. -/
def checkAvailability (g : GiftPool) : Int :=
  g.totalAvailable - g.reserved - g.used

end GiftPoolService

/-- C2: reserveGift increments reserved by qty exactly when
totalAvailable - reserved - used was at least qty beforehand, as one
indivisible conditional update; it returns false, not an error, when the
condition fails; the ledger invariant reserved + used at most totalAvailable
is preserved by every reserve; and of two competing unit reserves on a pool
entry with availability 1 (two atomic steps in sequence) exactly the first
returns true. -/
theorem reserveGift_atomic_conditional (g : GiftPool) (qty : Int) (hq : 0 < qty) :
    (qty ≤ g.totalAvailable - g.reserved - g.used →
      GiftPoolService.reserveGift g qty =
        Except.ok ({ g with reserved := g.reserved + qty }, true)) ∧
    (g.totalAvailable - g.reserved - g.used < qty →
      GiftPoolService.reserveGift g qty = Except.ok (g, false)) ∧
    (∀ g' r, GiftPoolService.reserveGift g qty = Except.ok (g', r) →
      g.reserved + g.used ≤ g.totalAvailable →
      g'.reserved + g'.used ≤ g'.totalAvailable) ∧
    (g.totalAvailable - g.reserved - g.used = 1 →
      GiftPoolService.reserveGift g 1 =
        Except.ok ({ g with reserved := g.reserved + 1 }, true) ∧
      GiftPoolService.reserveGift { g with reserved := g.reserved + 1 } 1 =
        Except.ok ({ g with reserved := g.reserved + 1 }, false)) := by
  refine ⟨?_, ?_, ?_, ?_⟩
  · intro h
    simp [GiftPoolService.reserveGift, h, not_le.mpr hq]
  · intro h
    simp [GiftPoolService.reserveGift, not_le.mpr h, not_le.mpr hq]
  · intro g' r hok hinv
    by_cases h : qty ≤ g.totalAvailable - g.reserved - g.used
    · simp [GiftPoolService.reserveGift, h, not_le.mpr hq] at hok
      obtain ⟨hg, _⟩ := hok
      subst hg
      simp
      omega
    · simp [GiftPoolService.reserveGift, h, not_le.mpr hq] at hok
      obtain ⟨hg, _⟩ := hok
      subst hg
      exact hinv
  · intro h
    constructor
    · simp [GiftPoolService.reserveGift, h]
    · simp [GiftPoolService.reserveGift]
      omega

/-- Witness for C2 on the pool entry with total 1, reserved 0, used 0 and
a unit reservation. -/
theorem reserveGift_atomic_conditional_witness :
    GiftPoolService.reserveGift { totalAvailable := 1, reserved := 0, used := 0 } 1 =
      Except.ok ({ totalAvailable := 1, reserved := 1, used := 0 }, true) ∧
    GiftPoolService.reserveGift { totalAvailable := 1, reserved := 1, used := 0 } 1 =
      Except.ok ({ totalAvailable := 1, reserved := 1, used := 0 }, false) :=
  (reserveGift_atomic_conditional
    { totalAvailable := 1, reserved := 0, used := 0 } 1 (by decide)).2.2.2 (by decide)

/-- Status enum of the PrizeDistribution schema. -/
inductive DistStatus
  | pending
  | processing
  | sent
  | failed
deriving DecidableEq, Repr

/-- A PrizeDistribution document. -/
structure PrizeDistribution where
  eventId : Nat
  winnerId : Int
  position : Nat
  prizeType : PrizeType
  status : DistStatus
  attempts : Nat
  lastAttemptAt : Option Int
  sentAt : Option Int
  error : Option String
deriving DecidableEq, Repr

/-- The fields of a User document consulted for TON prizes. -/
structure UserDoc where
  tonWalletAddress : Option String
deriving DecidableEq, Repr

/-- External-world inputs of one distribution attempt: the winner's User
document, the TON address validator, and the outcomes of the external TON
transfer and gift-send calls, plus the pool availability for the prize. -/
structure PrizeEnv where
  user : Option UserDoc
  validAddress : String → Bool
  transferOk : Bool
  poolAvailable : Int
  sendGiftOk : Bool

namespace PrizeService

/-- PrizeService.sendTelegramGift: pool source with positive availability
sends from the pool, a depleted pool falls back to on-demand, and an
explicit on-demand source sends on demand; a send failure is thrown. -/
def sendTelegramGift (env : PrizeEnv) (prize : Prize) : Except String Unit :=
  match prize.giftId with
  | none => Except.error "Gift ID required for Telegram gift"
  | some _ =>
      let source := prize.source.getD GiftSource.pool
      if source = GiftSource.pool then
        if 0 < env.poolAvailable then
          if env.sendGiftOk then Except.ok () else Except.error "Failed to send gift from pool"
        else
          if env.sendGiftOk then Except.ok () else Except.error "Failed to send gift (on-demand)"
      else
        if env.sendGiftOk then Except.ok () else Except.error "Failed to send gift (on-demand)"

/-- PrizeService.sendTONPrize; the second component records whether the
external transfer was actually attempted. All wallet preconditions are
checked, and thrown, before any transfer. -/
def sendTONPrize (env : PrizeEnv) (prize : Prize) : Except String Unit × Bool :=
  match prize.tonAmount with
  | none => (Except.error "TON amount required", false)
  | some a =>
      if a ≤ 0 then (Except.error "TON amount required", false)
      else
        match env.user with
        | none => (Except.error "User not found", false)
        | some u =>
            match u.tonWalletAddress with
            | none => (Except.error "User has no TON wallet connected", false)
            | some addr =>
                if ¬ env.validAddress addr then
                  (Except.error "Invalid TON wallet address", false)
                else if env.transferOk then
                  (Except.ok (), true)
                else
                  (Except.error "TON transfer failed", true)

/-- PrizeService.markCustomRewardSent: manual fulfillment, only the name is
required. -/
def markCustomRewardSent (prize : Prize) : Except String Unit :=
  match prize.customReward with
  | none => Except.error "Custom reward name required"
  | some c => if c.name = "" then Except.error "Custom reward name required" else Except.ok ()

/-- Result of PrizeService.sendPrize: the distribution document as it stands
after the call, whether the document was saved (the early returns save
nothing), and whether a TON transfer was attempted. -/
structure SendPrizeResult where
  distribution : PrizeDistribution
  saved : Bool
  transferAttempted : Bool
deriving Repr

/-- PrizeService.sendPrize: find or create the record for (event, winner,
position), return untouched if already sent or if three attempts were made,
otherwise increment attempts, stamp lastAttemptAt, dispatch by prize kind
and record sent or failed. -/
def sendPrize (dist? : Option PrizeDistribution) (eventId : Nat) (winnerId : Int)
    (position : Nat) (prize : Prize) (env : PrizeEnv) (now : Int) : SendPrizeResult :=
  let d := dist?.getD
    { eventId := eventId, winnerId := winnerId, position := position,
      prizeType := prize.type, status := DistStatus.pending, attempts := 0,
      lastAttemptAt := none, sentAt := none, error := none }
  if d.status = DistStatus.sent then
    { distribution := d, saved := false, transferAttempted := false }
  else if 3 ≤ d.attempts then
    { distribution := d, saved := false, transferAttempted := false }
  else
    let d₁ := { d with status := DistStatus.processing, attempts := d.attempts + 1,
                       lastAttemptAt := some now }
    let dispatched : Except String Unit × Bool :=
      match prize.type with
      | PrizeType.telegram_gift => (sendTelegramGift env prize, false)
      | PrizeType.ton => sendTONPrize env prize
      | PrizeType.custom => (markCustomRewardSent prize, false)
    match dispatched with
    | (Except.ok _, att) =>
        { distribution := { d₁ with status := DistStatus.sent, sentAt := some now,
                                    error := none },
          saved := true, transferAttempted := att }
    | (Except.error e, att) =>
        { distribution := { d₁ with status := DistStatus.failed, error := some e },
          saved := true, transferAttempted := att }

/-- PrizeService.retryFailedPrize on a found record: refuse (false) past the
attempts ceiling, report true without action when already sent, otherwise
re-enter sendPrize with the stored key and configuration. -/
def retryFailedPrize (d : PrizeDistribution) (prize : Prize) (env : PrizeEnv)
    (now : Int) : SendPrizeResult × Bool :=
  if 3 ≤ d.attempts then
    ({ distribution := d, saved := false, transferAttempted := false }, false)
  else if d.status = DistStatus.sent then
    ({ distribution := d, saved := false, transferAttempted := false }, true)
  else
    (sendPrize (some d) d.eventId d.winnerId d.position prize env now, true)

end PrizeService

/-- One distribution-path operation on a record: a direct sendPrize or an
admin retryFailedPrize, with that call's prize configuration and external
outcomes. -/
inductive DistOp
  | send (prize : Prize) (env : PrizeEnv) (now : Int)
  | retry (prize : Prize) (env : PrizeEnv) (now : Int)

/-- Apply one operation to the stored record. -/
def applyDistOp (d : PrizeDistribution) : DistOp → PrizeDistribution
  | DistOp.send prize env now =>
      (PrizeService.sendPrize (some d) d.eventId d.winnerId d.position prize env now).distribution
  | DistOp.retry prize env now =>
      ((PrizeService.retryFailedPrize d prize env now).1).distribution

/-- Apply a sequence of operations to the stored record. -/
def runDistOps (d : PrizeDistribution) : List DistOp → PrizeDistribution
  | [] => d
  | op :: ops => runDistOps (applyDistOp d op) ops

/-- Helper: one distribution operation keeps attempts within the cap and
never touches a record already marked sent. -/
theorem applyDistOp_step (d : PrizeDistribution) (op : DistOp) :
    (d.attempts ≤ 3 → (applyDistOp d op).attempts ≤ 3) ∧
    (d.status = DistStatus.sent → applyDistOp d op = d) := by
  constructor
  · intro hle
    cases op with
    | send prize env now =>
        by_cases hs : d.status = DistStatus.sent
        · simp [applyDistOp, PrizeService.sendPrize, hs]
          omega
        · by_cases ha : 3 ≤ d.attempts
          · simp [applyDistOp, PrizeService.sendPrize, hs, ha]
            omega
          · simp only [applyDistOp, PrizeService.sendPrize, Option.getD_some, if_neg hs,
              if_neg ha]
            split <;> simp <;> omega
    | retry prize env now =>
        by_cases ha : 3 ≤ d.attempts
        · simp [applyDistOp, PrizeService.retryFailedPrize, ha]
          omega
        · by_cases hs : d.status = DistStatus.sent
          · simp [applyDistOp, PrizeService.retryFailedPrize, ha, hs]
            omega
          · simp only [applyDistOp, PrizeService.retryFailedPrize, if_neg ha, if_neg hs,
              PrizeService.sendPrize, Option.getD_some]
            split <;> simp <;> omega
  · intro hs
    cases op with
    | send prize env now =>
        simp [applyDistOp, PrizeService.sendPrize, hs]
    | retry prize env now =>
        by_cases ha : 3 ≤ d.attempts <;>
          simp [applyDistOp, PrizeService.retryFailedPrize, ha, hs]

/-- C3: under any sequence of sendPrize and retryFailedPrize calls, a
record whose attempts counter is within the cap never exceeds 3 attempts,
and once the status is sent no further call mutates the record. -/
theorem attempts_capped_and_sent_immutable (d : PrizeDistribution) (ops : List DistOp) :
    (d.attempts ≤ 3 → (runDistOps d ops).attempts ≤ 3) ∧
    (d.status = DistStatus.sent → runDistOps d ops = d) := by
  induction ops generalizing d with
  | nil => exact ⟨fun h => h, fun _ => rfl⟩
  | cons op ops ih =>
      obtain ⟨h1, h2⟩ := applyDistOp_step d op
      constructor
      · intro hle
        simpa [runDistOps] using (ih (applyDistOp d op)).1 (h1 hle)
      · intro hs
        have hfix := h2 hs
        simp [runDistOps, hfix]
        simpa [hfix] using (ih (applyDistOp d op)).2 (by simpa [hfix] using hs)

/-- A custom prize with no reward payload: its dispatch always throws. -/
def failPrize : Prize :=
  { position := 1, type := PrizeType.custom, giftId := none, name := none,
    source := none, tonAmount := none, customReward := none }

/-- An environment in which every external call fails. -/
def nullEnv : PrizeEnv :=
  { user := none, validAddress := fun _ => false, transferOk := false,
    poolAvailable := 0, sendGiftOk := false }

/-- Witness for C3: four failing operations on a fresh record stay within
the attempts cap, and a retry against a sent record is the identity. -/
theorem attempts_capped_and_sent_immutable_witness :
    (runDistOps
      { eventId := 1, winnerId := 9, position := 1, prizeType := PrizeType.custom,
        status := DistStatus.pending, attempts := 0, lastAttemptAt := none,
        sentAt := none, error := none }
      [DistOp.send failPrize nullEnv 1, DistOp.retry failPrize nullEnv 2,
       DistOp.send failPrize nullEnv 3, DistOp.retry failPrize nullEnv 4]).attempts ≤ 3 ∧
    runDistOps
      { eventId := 1, winnerId := 9, position := 1, prizeType := PrizeType.custom,
        status := DistStatus.sent, attempts := 1, lastAttemptAt := none,
        sentAt := some 5, error := none }
      [DistOp.retry failPrize nullEnv 6] =
      { eventId := 1, winnerId := 9, position := 1, prizeType := PrizeType.custom,
        status := DistStatus.sent, attempts := 1, lastAttemptAt := none,
        sentAt := some 5, error := none } :=
  ⟨(attempts_capped_and_sent_immutable _ _).1 (by decide),
   (attempts_capped_and_sent_immutable _ _).2 rfl⟩

/-- A TON prize of 5 TON. -/
def tonPrize5 : Prize :=
  { position := 1, type := PrizeType.ton, giftId := none, name := none,
    source := none, tonAmount := some 5, customReward := none }

/-- An environment whose winner has no wallet address on file. -/
def noWalletEnv : PrizeEnv :=
  { user := some { tonWalletAddress := none }, validAddress := fun _ => false,
    transferOk := false, poolAvailable := 0, sendGiftOk := false }

/-- Counterexample to C7: a first distribution attempt for a TON prize to a
winner with no wallet on file fails before any transfer is attempted, with
the distinct wallet error, but the attempts counter is incremented from 0
to 1, so the precondition failure does consume one of the 3 attempts. -/
theorem ton_missing_wallet_consumes_attempt_cex :
    (PrizeService.sendPrize none 1 42 1 tonPrize5 noWalletEnv 100).transferAttempted
        = false ∧
    (PrizeService.sendPrize none 1 42 1 tonPrize5 noWalletEnv 100).distribution.error
        = some "User has no TON wallet connected" ∧
    (PrizeService.sendPrize none 1 42 1 tonPrize5 noWalletEnv 100).distribution.attempts
        = 1 ∧
    ¬ (PrizeService.sendPrize none 1 42 1 tonPrize5 noWalletEnv 100).distribution.attempts
        = 0 := by
  norm_num [PrizeService.sendPrize, PrizeService.sendTONPrize, tonPrize5, noWalletEnv]
  decide

/-- C7 as amended: for a TON prize with a positive amount, a missing or
format-invalid wallet address makes the attempt fail fast with one of the
two distinct wallet errors before any transfer is attempted; the failure
does, however, consume a retry attempt (attempts is incremented). -/
theorem ton_precondition_failfast (d : PrizeDistribution) (prize : Prize)
    (env : PrizeEnv) (now : Int)
    (hty : prize.type = PrizeType.ton)
    (hamt : ∃ a, prize.tonAmount = some a ∧ 0 < a)
    (hs : d.status ≠ DistStatus.sent) (ha : d.attempts < 3)
    (hw : (∃ u, env.user = some u ∧ u.tonWalletAddress = none) ∨
          (∃ u addr, env.user = some u ∧ u.tonWalletAddress = some addr ∧
            env.validAddress addr = false)) :
    (PrizeService.sendPrize (some d) d.eventId d.winnerId d.position prize env
        now).transferAttempted = false ∧
    (PrizeService.sendPrize (some d) d.eventId d.winnerId d.position prize env
        now).distribution.status = DistStatus.failed ∧
    (PrizeService.sendPrize (some d) d.eventId d.winnerId d.position prize env
        now).distribution.attempts = d.attempts + 1 ∧
    ((PrizeService.sendPrize (some d) d.eventId d.winnerId d.position prize env
        now).distribution.error = some "User has no TON wallet connected" ∨
     (PrizeService.sendPrize (some d) d.eventId d.winnerId d.position prize env
        now).distribution.error = some "Invalid TON wallet address") := by
  obtain ⟨a, hA, hApos⟩ := hamt
  have hna : ¬ 3 ≤ d.attempts := by omega
  rcases hw with ⟨u, hu, huw⟩ | ⟨u, addr, hu, huw, hv⟩
  · simp [PrizeService.sendPrize, PrizeService.sendTONPrize, hty, hA,
      not_le.mpr hApos, hu, huw, hs, hna]
  · simp [PrizeService.sendPrize, PrizeService.sendTONPrize, hty, hA,
      not_le.mpr hApos, hu, huw, hv, hs, hna]

/-- Witness for the amended C7 at a concrete record, prize and environment. -/
theorem ton_precondition_failfast_witness :
    (PrizeService.sendPrize
      (some { eventId := 1, winnerId := 42, position := 1, prizeType := PrizeType.ton,
              status := DistStatus.pending, attempts := 0, lastAttemptAt := none,
              sentAt := none, error := none })
      1 42 1 tonPrize5 noWalletEnv 100).transferAttempted = false ∧
    (PrizeService.sendPrize
      (some { eventId := 1, winnerId := 42, position := 1, prizeType := PrizeType.ton,
              status := DistStatus.pending, attempts := 0, lastAttemptAt := none,
              sentAt := none, error := none })
      1 42 1 tonPrize5 noWalletEnv 100).distribution.attempts = 0 + 1 := by
  have h := ton_precondition_failfast
    { eventId := 1, winnerId := 42, position := 1, prizeType := PrizeType.ton,
      status := DistStatus.pending, attempts := 0, lastAttemptAt := none,
      sentAt := none, error := none }
    tonPrize5 noWalletEnv 100 rfl ⟨5, rfl, by norm_num⟩ (by decide) (by decide)
    (Or.inl ⟨{ tonWalletAddress := none }, rfl, rfl⟩)
  exact ⟨h.1, h.2.2.1⟩

/-- The sort key of the leaderboard aggregations in points.ts: points
descending, then lastActivityAt ascending. -/
def lbRel (a b : UserEventStats) : Prop :=
  b.points < a.points ∨ (a.points = b.points ∧ a.lastActivityAt ≤ b.lastActivityAt)

instance : DecidableRel lbRel := fun a b => by
  unfold lbRel
  infer_instance

instance : IsTotal UserEventStats lbRel :=
  ⟨fun a b => by unfold lbRel; omega⟩

instance : IsTrans UserEventStats lbRel :=
  ⟨fun a b c h1 h2 => by unfold lbRel at h1 h2 ⊢; omega⟩

/-- The sorted participant list underlying calculateLeaderboard and
selectWinners (the dollar-sort stage on points descending and
lastActivityAt ascending). -/
def sortStats (l : List UserEventStats) : List UserEventStats :=
  List.insertionSort lbRel l

/-- The strict ahead-of ordering of the specification: more points, or equal
points with strictly earlier last activity. -/
def strictlyAhead (a b : UserEventStats) : Prop :=
  b.points < a.points ∨ (a.points = b.points ∧ a.lastActivityAt < b.lastActivityAt)

instance : DecidableRel strictlyAhead := fun a b => by
  unfold strictlyAhead
  infer_instance

namespace PointsService

/-- PointsService.calculateLeaderboard: sort, skip offset, take limit, and
attach ranks offset + index + 1. -/
def calculateLeaderboard (stats : List UserEventStats) (limit offset : Nat) :
    List (UserEventStats × Nat) :=
  (((sortStats stats).drop offset).take limit).enum.map
    (fun p => (p.2, offset + p.1 + 1))

/-- PointsService.getUserPosition: rank is one plus the count of documents
with more points, or equal points and strictly earlier last activity. -/
def getUserPosition (stats : List UserEventStats) (userId : Int) :
    Option (Nat × Int × Nat) :=
  match stats.find? (fun s => s.userId == userId) with
  | none => none
  | some u =>
      some ((stats.filter (fun s =>
          decide (u.points < s.points ∨
            (s.points = u.points ∧ s.lastActivityAt < u.lastActivityAt)))).length + 1,
        u.points, stats.length)

/-- Position numbering of PointsService.selectWinners (index + 1). -/
def toWinners : Nat → List UserEventStats → List Winner
  | _, [] => []
  | i, s :: l =>
      { telegramId := s.userId, points := s.points, position := i + 1,
        giftId := none, giftSent := false } :: toWinners (i + 1) l

/-- PointsService.selectWinners: the top winnersCount of the sorted stats,
with positions 1, 2, and so on. -/
def selectWinners (ev : Event) (stats : List UserEventStats) : List Winner :=
  toWinners 0 ((sortStats stats).take ev.winnersCount)

end PointsService

/-- The activity type enum of scoring.ts. -/
inductive ActivityKind
  | reaction
  | comment
  | reply
deriving DecidableEq, Repr

/-- A Participation document of scoring.ts. -/
structure Participation where
  telegramId : Int
  points : Int
  reactionsCount : Nat
  commentsCount : Nat
  repliesCount : Nat
  lastActivityAt : Int
deriving DecidableEq, Repr

/-- The strict ahead-of ordering of the specification on Participation
documents. -/
def strictlyAheadP (a b : Participation) : Prop :=
  b.points < a.points ∨ (a.points = b.points ∧ a.lastActivityAt < b.lastActivityAt)

instance : DecidableRel strictlyAheadP := fun a b => by
  unfold strictlyAheadP
  infer_instance

namespace Scoring

/-- The POINTS table of scoring.ts. -/
def POINTS : ActivityKind → Int
  | ActivityKind.reaction => 1
  | ActivityKind.comment => 3
  | ActivityKind.reply => 2

/-- The getUserPosition of scoring.ts: rank counts only documents with
strictly more points. -/
def getUserPosition (parts : List Participation) (telegramId : Int) :
    Option (Nat × Int) :=
  match parts.find? (fun p => p.telegramId == telegramId) with
  | none => none
  | some p =>
      some ((parts.filter (fun q => decide (p.points < q.points))).length + 1, p.points)

end Scoring

/-- Two equal-point participants with different last-activity timestamps. -/
def partEarly : Participation :=
  { telegramId := 1, points := 10, reactionsCount := 0, commentsCount := 0,
    repliesCount := 0, lastActivityAt := 5 }

/-- The later-activity participant with the same points as partEarly. -/
def partLate : Participation :=
  { telegramId := 2, points := 10, reactionsCount := 0, commentsCount := 0,
    repliesCount := 0, lastActivityAt := 9 }

/-- Counterexample to C4: the getUserPosition of scoring.ts ignores the
last-activity tie-break; with two equal-point participants, the one with
the later activity has one participant strictly ahead under the ordering,
so the claimed rank is 2, but the code returns rank 1. -/
theorem scoring_getUserPosition_tiebreak_cex :
    Scoring.getUserPosition [partEarly, partLate] 2 = some (1, 10) ∧
    ([partEarly, partLate].filter
        (fun q => decide (strictlyAheadP q partLate))).length + 1 = 2 ∧
    ¬ (1 = ([partEarly, partLate].filter
        (fun q => decide (strictlyAheadP q partLate))).length + 1) := by
  refine ⟨?_, by decide, by decide⟩
  decide

/-- C4 as amended: the points.ts leaderboard sort (underlying
calculateLeaderboard and selectWinners) places any participant strictly
ahead of another - more points, or equal points with earlier last activity -
at a strictly smaller index, and PointsService.getUserPosition returns one
plus the count of participants strictly ahead under that ordering; the
getUserPosition of scoring.ts instead returns one plus the count of
participants with strictly more points only, ignoring the tie-break. -/
theorem leaderboard_order_and_rank :
    (∀ (stats : List UserEventStats) (i j : Fin (sortStats stats).length),
      strictlyAhead ((sortStats stats).get i) ((sortStats stats).get j) →
        (i : Nat) < j) ∧
    (∀ (stats : List UserEventStats) (userId : Int) (u : UserEventStats),
      stats.find? (fun s => s.userId == userId) = some u →
      PointsService.getUserPosition stats userId =
        some ((stats.filter (fun s => decide (strictlyAhead s u))).length + 1,
          u.points, stats.length)) ∧
    (∀ (parts : List Participation) (telegramId : Int) (p : Participation),
      parts.find? (fun q => q.telegramId == telegramId) = some p →
      Scoring.getUserPosition parts telegramId =
        some ((parts.filter (fun q => decide (p.points < q.points))).length + 1,
          p.points)) := by
  refine ⟨?_, ?_, ?_⟩
  · intro stats i j h
    have hs : (sortStats stats).Sorted lbRel := List.sorted_insertionSort lbRel stats
    rcases lt_trichotomy (i : Nat) (j : Nat) with hlt | heq | hgt
    · exact hlt
    · exfalso
      have : i = j := Fin.ext heq
      subst this
      unfold strictlyAhead at h
      omega
    · exfalso
      have hrel : lbRel ((sortStats stats).get j) ((sortStats stats).get i) :=
        hs.rel_get_of_lt hgt
      unfold strictlyAhead at h
      unfold lbRel at hrel
      omega
  · intro stats userId u hu
    simp [PointsService.getUserPosition, hu, strictlyAhead]
  · intro parts telegramId p hp
    simp [Scoring.getUserPosition, hp]

/-- A single-participant stats list for the C4 witness. -/
def statSolo : UserEventStats :=
  { userId := 7, points := 3, reactionsCount := 1, commentsCount := 0,
    repliesCount := 0, boostMultiplier := 1, lastActivityAt := 4 }

/-- Witness for the amended C4 on concrete one- and two-element lists. -/
theorem leaderboard_order_and_rank_witness :
    PointsService.getUserPosition [statSolo] 7 =
      some (([statSolo].filter (fun s => decide (strictlyAhead s statSolo))).length + 1,
        statSolo.points, 1) ∧
    Scoring.getUserPosition [partEarly, partLate] 2 =
      some (([partEarly, partLate].filter
        (fun q => decide (partLate.points < q.points))).length + 1, partLate.points) := by
  constructor
  · exact (leaderboard_order_and_rank.2.1) [statSolo] 7 statSolo (by decide)
  · exact (leaderboard_order_and_rank.2.2) [partEarly, partLate] 2 partLate (by decide)

/-- One gift send handed to GiftsService.sendGiftsToWinners. -/
structure GiftSend where
  telegramId : Int
  giftId : String
  position : Nat
deriving DecidableEq, Repr

/-- A SecondChanceEntry document (per (participant, contest)). -/
structure SecondChanceEntry where
  userId : Int
  isWinner : Bool
deriving DecidableEq, Repr

namespace SchedulerService

/-- JavaScript or-else over an optional string: undefined and the empty
string are falsy, so both fall back to the default. -/
def jsOrDefault (s : Option String) (d : String) : String :=
  match s with
  | none => d
  | some v => if v = "" then d else v

/-- The winner-to-gift mapping inside completeEvent: the gift of the prize
at the winner's index, or the default gift delicious_cake when that prize
is absent or carries no giftId. -/
def assignGifts (prizes : List Prize) : Nat → List Winner → List Winner
  | _, [] => []
  | i, w :: ws =>
      { w with giftId := some (jsOrDefault ((prizes.get? i).bind Prize.giftId)
          "delicious_cake") } :: assignGifts prizes (i + 1) ws

/-- Flag the first n winners as having their gift sent (the scheduler marks
winners up to the success count in list order). -/
def markSentPrefix : Nat → List Winner → List Winner
  | 0, ws => ws
  | _ + 1, [] => []
  | n + 1, w :: ws => { w with giftSent := true } :: markSentPrefix n ws

/-- SchedulerService.completeEvent: select winners, set status completed
(also when there are no participants, with an empty winners list), assign
each winner its gift, send the gifts and flag the first success-count
winners. Returns the saved event and the list handed to
GiftsService.sendGiftsToWinners. -/
def completeEvent (ev : Event) (stats : List UserEventStats) (sendOk : Int → Bool) :
    Event × List GiftSend :=
  let winners := PointsService.selectWinners ev stats
  if winners = [] then
    ({ ev with status := EventStatus.completed }, [])
  else
    let winnersWithGifts := assignGifts ev.prizes 0 winners
    let giftsToSend := winnersWithGifts.map
      (fun w => { telegramId := w.telegramId, giftId := w.giftId.getD "",
                  position := w.position : GiftSend })
    let success := (winnersWithGifts.filter (fun w => sendOk w.telegramId)).length
    ({ ev with status := EventStatus.completed,
               winners := markSentPrefix success winnersWithGifts },
     giftsToSend)

/-- SchedulerService.processEvents: select the events with status active and
endsAt in the past and complete each one. -/
def processEvents (now : Int) (sendOk : Int → Bool)
    (items : List (Event × List UserEventStats)) :
    List (Event × List UserEventStats) :=
  items.map (fun p =>
    if p.1.status = EventStatus.active ∧ p.1.endsAt < now then
      ((completeEvent p.1 p.2 sendOk).1, p.2)
    else p)

/-- The second-chance winner objects appended by runSecondChanceDraw: points
0, sequential positions after the existing winners, and the gift of the
prize at the corresponding index or the default gift. -/
def scToWinners (prizes : List Prize) : Nat → List SecondChanceEntry → List Winner
  | _, [] => []
  | k, e :: es =>
      { telegramId := e.userId, points := 0, position := k + 1,
        giftId := some (jsOrDefault ((prizes.get? k).bind Prize.giftId)
          "delicious_cake"),
        giftSent := false } :: scToWinners prizes (k + 1) es

/-- Modelled from the spec: PointsService.selectSecondChanceWinners is
missing from the repository sources (only its call site in the scheduler is
present). Following the spec, it selects up to the cap among the contest's
SecondChanceEntry records that are not already winners, and records the
draw by marking isWinner on the chosen entries. Returns the selection and
the updated entries. -/
def selectSecondChanceWinners (ev : Event) (entries : List SecondChanceEntry)
    (cap : Nat) : List SecondChanceEntry × List SecondChanceEntry :=
  let eligible := entries.filter
    (fun e => !e.isWinner && !(ev.winners.any (fun w => w.telegramId == e.userId)))
  let selected := eligible.take cap
  (selected,
   entries.map (fun e =>
     if selected.any (fun s => s.userId == e.userId) then { e with isWinner := true }
     else e))

/-- SchedulerService.runSecondChanceDraw: skip unless the event status is
completed, select up to 3 second-chance winners, append them to the winners
with sequential positions and gifts, send their gifts and flag the ones up
to the success count. Returns the event, the entries and the sent gifts. -/
def runSecondChanceDraw (ev : Event) (entries : List SecondChanceEntry)
    (sendOk : Int → Bool) : Event × List SecondChanceEntry × List GiftSend :=
  if ev.status ≠ EventStatus.completed then
    (ev, entries, [])
  else
    let picked := selectSecondChanceWinners ev entries 3
    if picked.1 = [] then
      (ev, picked.2, [])
    else
      let newWinners := scToWinners ev.prizes ev.winners.length picked.1
      let gifts := newWinners.map
        (fun w => { telegramId := w.telegramId, giftId := w.giftId.getD "",
                    position := w.position : GiftSend })
      let success := (newWinners.filter (fun w => sendOk w.telegramId)).length
      ({ ev with winners := ev.winners ++ markSentPrefix success newWinners },
       picked.2, gifts)

end SchedulerService

/-- Whether a distribution record carries the given (event, winner,
position) key. -/
def matchesKey (d : PrizeDistribution) (eventId : Nat) (winnerId : Int)
    (position : Nat) : Bool :=
  d.eventId == eventId && d.winnerId == winnerId && d.position == position

namespace PrizeService

/-- sendPrize against a store of distribution records: lookup by the
(event, winner, position) key before any creation; the early returns save
nothing, and otherwise the found record is replaced in place or the fresh
record is inserted. -/
def sendPrizeStore (store : List PrizeDistribution) (eventId : Nat) (winnerId : Int)
    (position : Nat) (prize : Prize) (env : PrizeEnv) (now : Int) :
    List PrizeDistribution :=
  let found := store.find? (fun d => matchesKey d eventId winnerId position)
  let r := sendPrize found eventId winnerId position prize env now
  if r.saved then
    match found with
    | some _ => store.map (fun d =>
        if matchesKey d eventId winnerId position then r.distribution else d)
    | none => store ++ [r.distribution]
  else store

end PrizeService

/-- Helper: completeEvent always leaves the event completed. -/
theorem completeEvent_status (ev : Event) (stats : List UserEventStats)
    (sendOk : Int → Bool) :
    (SchedulerService.completeEvent ev stats sendOk).1.status = EventStatus.completed := by
  unfold SchedulerService.completeEvent
  by_cases h : PointsService.selectWinners ev stats = [] <;> simp [h]

/-- Helper: a freshly created distribution record carries the queried key. -/
theorem sendPrize_key_none (e : Nat) (w : Int) (p : Nat) (prize : Prize)
    (env : PrizeEnv) (now : Int) :
    matchesKey (PrizeService.sendPrize none e w p prize env now).distribution e w p
      = true := by
  unfold PrizeService.sendPrize
  simp only [Option.getD_none]
  split
  · simp [matchesKey]
  · split
    · simp [matchesKey]
    · split <;> simp [matchesKey]

/-- Helper: sendPrize on a found record keeps that record's key. -/
theorem sendPrize_key_some (d : PrizeDistribution) (e : Nat) (w : Int) (p : Nat)
    (prize : Prize) (env : PrizeEnv) (now : Int)
    (h : matchesKey d e w p = true) :
    matchesKey (PrizeService.sendPrize (some d) e w p prize env now).distribution e w p
      = true := by
  unfold PrizeService.sendPrize
  simp only [Option.getD_some]
  split
  · exact h
  · split
    · exact h
    · simp only [matchesKey] at h ⊢
      split <;> simpa using h

/-- C5: running the scheduler tick twice in immediate succession equals
running it once - a contest completed by the first tick has status
completed and is not selected by the second, which queries only active
contests past endsAt - and sendPrize against a record store in which each
(contest, winner, position) key has at most one record preserves that
uniqueness, because the record is looked up by its key before any creation. -/
theorem tick_idempotent_and_distribution_unique :
    (∀ (now : Int) (sendOk : Int → Bool) (items : List (Event × List UserEventStats)),
      SchedulerService.processEvents now sendOk
          (SchedulerService.processEvents now sendOk items) =
        SchedulerService.processEvents now sendOk items) ∧
    (∀ (store : List PrizeDistribution) (eventId : Nat) (winnerId : Int)
        (position : Nat) (prize : Prize) (env : PrizeEnv) (now : Int),
      store.countP (fun d => matchesKey d eventId winnerId position) ≤ 1 →
      (PrizeService.sendPrizeStore store eventId winnerId position prize env
          now).countP (fun d => matchesKey d eventId winnerId position) ≤ 1) := by
  constructor
  · intro now sendOk items
    induction items with
    | nil => rfl
    | cons p items ih =>
        simp only [SchedulerService.processEvents, List.map_cons] at ih ⊢
        refine congrArg₂ List.cons ?_ ih
        by_cases h : p.1.status = EventStatus.active ∧ p.1.endsAt < now
        · have hc := completeEvent_status p.1 p.2 sendOk
          simp [h, hc]
        · simp [h]
  · intro store e w p prize env now h
    unfold PrizeService.sendPrizeStore
    cases hf : store.find? (fun d => matchesKey d e w p) with
    | none =>
        simp only
        split
        · have h0 : store.countP (fun d => matchesKey d e w p) = 0 := by
            rw [List.countP_eq_zero]
            intro a ha
            simpa using List.find?_eq_none.mp hf a ha
          rw [List.countP_append, h0]
          simpa [List.countP_cons] using Nat.le_of_eq (by
            simp [List.countP_cons, sendPrize_key_none e w p prize env now])
        · exact h
    | some d0 =>
        simp only
        split
        · rw [List.countP_map]
          have hkey : matchesKey d0 e w p = true := by
            simpa using List.find?_some hf
          have hcong : ∀ a ∈ store,
              ((fun d => matchesKey d e w p) ∘ (fun d =>
                if matchesKey d e w p then
                  (PrizeService.sendPrize (some d0) e w p prize env now).distribution
                else d)) a ↔ (fun d => matchesKey d e w p) a := by
            intro a _
            by_cases hm : matchesKey a e w p = true
            · simp [Function.comp, hm, sendPrize_key_some d0 e w p prize env now hkey]
            · simp [Function.comp, hm]
          rw [List.countP_congr hcong]
          exact h
        · exact h

/-- Witness for C5's uniqueness part on the empty store and a concrete key. -/
theorem tick_idempotent_and_distribution_unique_witness :
    (PrizeService.sendPrizeStore [] 1 42 1 failPrize nullEnv 0).countP
      (fun d => matchesKey d 1 42 1) ≤ 1 :=
  tick_idempotent_and_distribution_unique.2 [] 1 42 1 failPrize nullEnv 0 (by decide)

/-- Helper: the j-th winner produced by assignGifts is the j-th input
winner with the gift of the prize at offset i + j, or the default gift. -/
theorem assignGifts_get? (prizes : List Prize) :
    ∀ (ws : List Winner) (i j : Nat),
      (SchedulerService.assignGifts prizes i ws).get? j =
        (ws.get? j).map (fun w =>
          { w with giftId := some (SchedulerService.jsOrDefault
              ((prizes.get? (i + j)).bind Prize.giftId) "delicious_cake") }) := by
  intro ws
  induction ws with
  | nil => intro i j; simp [SchedulerService.assignGifts]
  | cons w ws ih =>
      intro i j
      cases j with
      | zero => simp [SchedulerService.assignGifts]
      | succ j =>
          have harith : i + (j + 1) = (i + 1) + j := by omega
          simp only [SchedulerService.assignGifts, List.get?_cons_succ, harith]
          exact ih (i + 1) j

/-- Helper: the j-th second-chance winner object carries the entry's user,
position k + j + 1 and the gift of the prize at offset k + j, or the
default gift. -/
theorem scToWinners_get? (prizes : List Prize) :
    ∀ (es : List SecondChanceEntry) (k j : Nat),
      (SchedulerService.scToWinners prizes k es).get? j =
        (es.get? j).map (fun e =>
          { telegramId := e.userId, points := 0, position := (k + j) + 1,
            giftId := some (SchedulerService.jsOrDefault
              ((prizes.get? (k + j)).bind Prize.giftId) "delicious_cake"),
            giftSent := false }) := by
  intro es
  induction es with
  | nil => intro k j; simp [SchedulerService.scToWinners]
  | cons e es ih =>
      intro k j
      cases j with
      | zero => simp [SchedulerService.scToWinners]
      | succ j =>
          have harith : k + (j + 1) = (k + 1) + j := by omega
          simp only [SchedulerService.scToWinners, List.get?_cons_succ, harith]
          exact ih (k + 1) j

/-- C10: in the scheduler completion path, every selected winner is sent a
Telegram gift whose id is the giftId of the prize at the winner's index
when present, and the default gift delicious_cake when that prize is absent
or carries no giftId (for example a TON or custom prize); second-chance
winners get the same fallback at the offset after the existing winners. -/
theorem default_gift_fallback :
    (∀ (ev : Event) (stats : List UserEventStats) (sendOk : Int → Bool),
      PointsService.selectWinners ev stats ≠ [] →
      ∀ j : Nat,
        ((SchedulerService.completeEvent ev stats sendOk).2.get? j).map
            GiftSend.giftId =
          ((PointsService.selectWinners ev stats).get? j).map (fun _ =>
            SchedulerService.jsOrDefault ((ev.prizes.get? j).bind Prize.giftId)
              "delicious_cake") ∧
        ((SchedulerService.completeEvent ev stats sendOk).2.get? j).map
            GiftSend.telegramId =
          ((PointsService.selectWinners ev stats).get? j).map Winner.telegramId) ∧
    (∀ (ev : Event) (entries : List SecondChanceEntry) (sendOk : Int → Bool),
      ev.status = EventStatus.completed →
      (SchedulerService.selectSecondChanceWinners ev entries 3).1 ≠ [] →
      ∀ j : Nat,
        ((SchedulerService.runSecondChanceDraw ev entries sendOk).2.2.get? j).map
            GiftSend.giftId =
          (((SchedulerService.selectSecondChanceWinners ev entries 3).1.get? j)).map
            (fun _ => SchedulerService.jsOrDefault
              ((ev.prizes.get? (ev.winners.length + j)).bind Prize.giftId)
              "delicious_cake") ∧
        ((SchedulerService.runSecondChanceDraw ev entries sendOk).2.2.get? j).map
            GiftSend.telegramId =
          (((SchedulerService.selectSecondChanceWinners ev entries 3).1.get? j)).map
            SecondChanceEntry.userId) := by
  constructor
  · intro ev stats sendOk hne j
    unfold SchedulerService.completeEvent
    simp only [if_neg hne, List.get?_map, assignGifts_get? ev.prizes _ 0 j, Nat.zero_add]
    cases (PointsService.selectWinners ev stats).get? j <;> simp
  · intro ev entries sendOk hst hne j
    unfold SchedulerService.runSecondChanceDraw
    simp only [hst]
    rw [if_neg (by simp), if_neg hne]
    simp only [List.get?_map, scToWinners_get? ev.prizes _ ev.winners.length j]
    cases (SchedulerService.selectSecondChanceWinners ev entries 3).1.get? j <;> simp

/-- A gift-send environment in which every send succeeds. -/
def allOkSend : Int → Bool := fun _ => true

/-- An active all-activity contest with one TON prize, for the C10 witness. -/
def wEv : Event :=
  { status := EventStatus.active, activityType := ActivityType.all, endsAt := 10,
    winnersCount := 1, prizes := [tonPrize5], winners := [],
    totalReactions := 0, totalComments := 0 }

/-- A completed contest with no primary winners and no prizes. -/
def scEvent : Event :=
  { status := EventStatus.completed, activityType := ActivityType.all, endsAt := 0,
    winnersCount := 1, prizes := [], winners := [],
    totalReactions := 0, totalComments := 0 }

/-- Four opted-in second-chance entries, none yet a winner. -/
def scEntries : List SecondChanceEntry :=
  [{ userId := 1, isWinner := false }, { userId := 2, isWinner := false },
   { userId := 3, isWinner := false }, { userId := 4, isWinner := false }]

/-- Witness for C10: with a TON prize at position 1 the primary winner is
sent the default gift, and with no prize configured the first second-chance
winner is sent the default gift as well. -/
theorem default_gift_fallback_witness :
    ((SchedulerService.completeEvent wEv [statSolo] allOkSend).2.get? 0).map
        GiftSend.giftId = some "delicious_cake" ∧
    ((SchedulerService.runSecondChanceDraw scEvent scEntries allOkSend).2.2.get? 0).map
        GiftSend.giftId = some "delicious_cake" := by
  constructor
  · have h := (default_gift_fallback.1 wEv [statSolo] allOkSend (by decide) 0).1
    rw [h]; decide
  · have h := (default_gift_fallback.2 scEvent scEntries allOkSend rfl (by decide) 0).1
    rw [h]; decide

/-- Counterexample to C8: after a first second-chance draw on a completed
contest with four eligible entries, the contest is processed, yet a re-run
of the draw appends a fourth winner and sends another gift - the re-run is
not a no-op, because the event status stays completed and the leftover
fourth entry is still eligible. -/
theorem secondChance_rerun_not_noop_cex :
    (SchedulerService.runSecondChanceDraw scEvent scEntries allOkSend).1.winners.length
        = 3 ∧
    ¬ (SchedulerService.runSecondChanceDraw
        (SchedulerService.runSecondChanceDraw scEvent scEntries allOkSend).1
        (SchedulerService.runSecondChanceDraw scEvent scEntries allOkSend).2.1
        allOkSend).2.2 = [] ∧
    (SchedulerService.runSecondChanceDraw
        (SchedulerService.runSecondChanceDraw scEvent scEntries allOkSend).1
        (SchedulerService.runSecondChanceDraw scEvent scEntries allOkSend).2.1
        allOkSend).1.winners.length = 4 := by
  refine ⟨by decide, by decide, by decide⟩

/-- C8 as amended: the second-chance draw is a no-op - nothing appended,
nothing sent, entries unchanged - when the contest status is no longer
completed, or when no eligible unmarked entry remains (every entry is
already marked a winner or its user is already in the winners list); the
status itself is not changed by a draw, so with more eligible entries than
the cap of 3 a re-run does append further winners. -/
theorem secondChance_noop_conditions (ev : Event) (entries : List SecondChanceEntry)
    (sendOk : Int → Bool) :
    (ev.status ≠ EventStatus.completed →
      SchedulerService.runSecondChanceDraw ev entries sendOk = (ev, entries, [])) ∧
    ((∀ e ∈ entries, e.isWinner = true ∨
        ev.winners.any (fun w => w.telegramId == e.userId) = true) →
      SchedulerService.runSecondChanceDraw ev entries sendOk = (ev, entries, [])) := by
  constructor
  · intro h
    simp [SchedulerService.runSecondChanceDraw, h]
  · intro h
    by_cases hst : ev.status = EventStatus.completed
    · have hel : entries.filter
          (fun e => !e.isWinner && !(ev.winners.any (fun w => w.telegramId == e.userId)))
          = [] := by
        rw [List.filter_eq_nil]
        intro e he
        rcases h e he with hw | hin
        · simp [hw]
        · simp [hin]
      unfold SchedulerService.runSecondChanceDraw SchedulerService.selectSecondChanceWinners
      simp [hst, hel, List.map_id]
    · simp [SchedulerService.runSecondChanceDraw, hst]

/-- Witness for the amended C8: a draw against a cancelled contest and a
draw whose only entry is already marked a winner are both no-ops. -/
theorem secondChance_noop_conditions_witness :
    SchedulerService.runSecondChanceDraw
        { scEvent with status := EventStatus.cancelled } scEntries allOkSend =
      ({ scEvent with status := EventStatus.cancelled }, scEntries, []) ∧
    SchedulerService.runSecondChanceDraw scEvent
        [{ userId := 1, isWinner := true }] allOkSend =
      (scEvent, [{ userId := 1, isWinner := true }], []) := by
  constructor
  · exact (secondChance_noop_conditions _ _ _).1 (by decide)
  · exact (secondChance_noop_conditions _ _ _).2 (by
      intro e he
      simp at he
      simp [he])

namespace Scoring

/-- The recordActivity of scoring.ts: one findOneAndUpdate with upsert whose
update is a dollar-inc of points and of the matching counter plus a set of
lastActivityAt - a single atomic step against the Participation document. -/
def recordActivity (p? : Option Participation) (telegramId : Int)
    (kind : ActivityKind) (now : Int) : Participation :=
  let p := p?.getD
    { telegramId := telegramId, points := 0, reactionsCount := 0,
      commentsCount := 0, repliesCount := 0, lastActivityAt := now }
  { p with
    points := p.points + POINTS kind,
    reactionsCount := if kind = ActivityKind.reaction then p.reactionsCount + 1
                      else p.reactionsCount,
    commentsCount := if kind = ActivityKind.comment then p.commentsCount + 1
                     else p.commentsCount,
    repliesCount := if kind = ActivityKind.reply then p.repliesCount + 1
                    else p.repliesCount,
    lastActivityAt := now }

/-- A sequence of recordActivity steps on one Participation document. -/
def runRecord (p : Participation) : List (ActivityKind × Int) → Participation
  | [] => p
  | c :: cs => runRecord (recordActivity (some p) p.telegramId c.1 c.2) cs

end Scoring

/-- The final stored points of two concurrent handleReaction calls on the
same fresh (participant, contest): both document reads happen before either
save (the stats document does not exist yet for both), then the two saves
land in order, the second overwriting the first with its own materialized
total. -/
def lostUpdateFinalPoints : Int :=
  match PointsService.handleReaction wEv none none 7 0,
        PointsService.handleReaction wEv none none 7 0 with
  | Except.ok _, Except.ok (_, st2, _) => statsPoints st2
  | _, _ => 0

/-- Counterexample to C9: PointsService.handleReaction reads the stats
document and saves the whole materialized total back; under the interleaving
in which two accepted reaction calls (1 point each) both read before either
save, the final total is 1, not the 2 the claim requires. -/
theorem handleReaction_lost_update_cex :
    PointsService.handleReaction wEv none none 7 0 =
      Except.ok ({ wEv with totalReactions := 1 },
        some { userId := 7, points := 1, reactionsCount := 1, commentsCount := 0,
               repliesCount := 0, boostMultiplier := 1, lastActivityAt := 0 }, 1) ∧
    lostUpdateFinalPoints = 1 ∧
    ¬ lostUpdateFinalPoints = 1 + 1 := by
  have hj : jsRound ((PointsService.REACTION_POINTS : Rat)) = 1 := by
    norm_num [jsRound, PointsService.REACTION_POINTS]
  have h1 : PointsService.handleReaction wEv none none 7 0 =
      Except.ok ({ wEv with totalReactions := 1 },
        some { userId := 7, points := 1, reactionsCount := 1, commentsCount := 0,
               repliesCount := 0, boostMultiplier := 1, lastActivityAt := 0 }, 1) := by
    simp [PointsService.handleReaction, PointsService.getActiveBoost, wEv, hj]
  refine ⟨h1, ?_, ?_⟩
  · simp [lostUpdateFinalPoints, h1, statsPoints]
  · simp [lostUpdateFinalPoints, h1, statsPoints]

/-- C9 as amended: the recordActivity of scoring.ts applies its point delta
with an atomic increment in one indivisible findOneAndUpdate, so under any
ordering of concurrently delivered actions for one participant the final
total reflects every delta; PointsService.handleReaction and handleComment,
by contrast, read the stats document and save the whole total back, which
can lose an update under a concurrent interleaving. -/
theorem recordActivity_atomic_no_lost_update :
    (∀ (p : Participation) (id1 id2 : Int) (k1 k2 : ActivityKind) (t1 t2 : Int),
      (Scoring.recordActivity (some (Scoring.recordActivity (some p) id1 k1 t1))
          id2 k2 t2).points = p.points + Scoring.POINTS k1 + Scoring.POINTS k2 ∧
      (Scoring.recordActivity (some (Scoring.recordActivity (some p) id2 k2 t2))
          id1 k1 t1).points = p.points + Scoring.POINTS k1 + Scoring.POINTS k2) ∧
    (∀ (p : Participation) (calls : List (ActivityKind × Int)),
      (Scoring.runRecord p calls).points =
        p.points + (calls.map (fun c => Scoring.POINTS c.1)).sum) := by
  constructor
  · intro p id1 id2 k1 k2 t1 t2
    constructor
    · simp [Scoring.recordActivity]
    · simp [Scoring.recordActivity]
      ring
  · intro p calls
    induction calls generalizing p with
    | nil => simp [Scoring.runRecord]
    | cons c cs ih =>
        simp [Scoring.runRecord, ih, Scoring.recordActivity]
        ring
